import Mathlib

/-!
Shallow embedding of the turn-routing coordinator of
`src/backend/src/semantic_kernel_orchestrator.py`:

* `CustomGroupChatManager.filter_results`   → `filter_results`
* `CustomGroupChatManager.should_terminate` → `should_terminate`
* `CustomGroupChatManager.select_next_agent`→ `select_next_agent`
* `SemanticKernelOrchestrator.process_message` → `process_message`

Python `json.loads` is external library code; it is abstracted by its
outcome: a function `loads : String → Option JVal` where `none` models a
`json.JSONDecodeError` and `some v` models the decoded JSON value.
All theorems quantify over `loads`; concrete instantiations used in
counterexamples and witnesses mirror real `json.loads` on the handful of
strings they mention.

The human-readable `reason` strings attached to `StringResult` /
`BooleanResult` / `MessageResult` in the source are logging text never
inspected by the orchestration; the embedding models only the `result`
fields.  Console `print` calls are likewise not modelled, except for the
one raise they can cause: `format_agent_response(None)` evaluates
`response.content` on `None`, raising `AttributeError` (its handler only
catches `json.JSONDecodeError`).
-/

/-- A decoded JSON value, the image of Python `json.loads`.  Objects are
association lists with the unique-key property of Python dicts. -/
inductive JVal where
  | null : JVal
  | bool (b : Bool) : JVal
  | num (n : Int) : JVal
  | str (s : String) : JVal
  | arr (xs : List JVal) : JVal
  | obj (kvs : List (String × JVal)) : JVal

/-- Whether a decoded JSON value is an object (a Python dict). -/
def JVal.isObj : JVal → Bool
  | .obj _ => true
  | _ => false

/-- Python `d.get(k) == s` for a string literal `s`: true exactly when the
looked-up value is the JSON string `s` (Python `==` between a non-string
and a string is `False`, and `None == s` is `False`). -/
def optJEqStr : Option JVal → String → Bool
  | some (.str s), t => s == t
  | _, _ => false

/-- Python dict/string subscript `v[k]` collapsed to `Option`: every call
site wraps the subscript chain in `except Exception`, so `KeyError`,
`TypeError` and `IndexError` are all equivalent to "no value". -/
def jIndexS : Option JVal → String → Option JVal
  | some (.obj kvs), k => kvs.lookup k
  | _, _ => none

/-- Python subscript `v[0]` under the same `except Exception` collapse.
(A Python string also supports `[0]`, but in both indexing chains of the
source the character produced would immediately hit a string-key
subscript, which raises `TypeError`; so `none` is exact there too.) -/
def jIndex0 : Option JVal → Option JVal
  | some (.arr (x :: _)) => some x
  | _ => none

/-- `parsed["response"]["result"]["conversations"][0]["intents"][0]["name"]`
from the `clu_result` branch of `select_next_agent` (lines 98-106). -/
def clu_intent (v : JVal) : Option JVal :=
  jIndexS (jIndex0 (jIndexS (jIndex0 (jIndexS (jIndexS (jIndexS (some v) "response") "result") "conversations")) "intents")) "name"

/-- `semantic_kernel.contents.AuthorRole`, restricted to the values the
routing logic distinguishes (it only ever compares against `USER`). -/
inductive AuthorRole where
  | user : AuthorRole
  | assistant : AuthorRole
  | system : AuthorRole
  | tool : AuthorRole
deriving DecidableEq, Repr

/-- A `ChatMessageContent`: author role, optional agent name (user
messages carry no name), and the raw textual content. -/
structure ChatMessage where
  role : AuthorRole
  name : Option String
  content : String
deriving DecidableEq, Repr

/-- The Python exceptions that can escape the embedded functions. -/
inductive PyError where
  | attributeError (msg : String) : PyError
deriving DecidableEq, Repr

/-- `CustomGroupChatManager.filter_results` (lines 20-33): the `result`
message of the returned `MessageResult` — an assistant-role message whose
content is the last history entry's content, or the fixed fallback text
for an empty history. -/
def filter_results (chat_history : List ChatMessage) : ChatMessage :=
  match chat_history.getLast? with
  | none =>
      { role := .assistant, name := none, content := "No messages in chat history." }
  | some last_message =>
      { role := .assistant, name := none, content := last_message.content }

/-- `CustomGroupChatManager.should_terminate` (lines 143-177), returning
the `result` field of the `BooleanResult`, or the uncaught Python
exception.  The `except` clause catches only `json.JSONDecodeError`
(modelled by `loads _ = none`); when the content decodes to a non-object
JSON value, `parsed_content.get("terminated")` raises `AttributeError`,
which propagates. -/
def should_terminate (loads : String → Option JVal) (chat_history : List ChatMessage) :
    Except PyError Bool :=
  match chat_history.getLast? with
  | none => .ok false
  | some last_message =>
      match loads last_message.content with
      | none => .ok false
      | some (.obj kvs) =>
          let terminated := optJEqStr (kvs.lookup "terminated") "True"
          let need_more_info := optJEqStr (kvs.lookup "need_more_info") "True"
          if terminated || need_more_info then .ok true else .ok false
      | some _ => .error (.attributeError "object has no attribute get")

/-- Python `agent == route` where `route = parsed.get("target_agent")`:
true only when the route is a JSON string equal to the agent name
(`None == s` and number-vs-string comparisons are `False`). -/
def routeEq : Option JVal → String → Bool
  | some (.str s), agent => agent == s
  | _, _ => false

/-- `CustomGroupChatManager.select_next_agent` (lines 40-140), returning
the `result` field of the `StringResult`, or the uncaught Python
exception.  On an empty history `format_agent_response(None)` raises
`AttributeError` before any branch runs (line 46).  With a last message
present, every decode or subscript failure inside the TriageAgent and
HeadSupportAgent branches is caught by their `except Exception` handlers
and yields `result=None`; an unrecognized `type` tag falls through the
`try` block to the default case at lines 136-140, also `None`. -/
def select_next_agent (loads : String → Option JVal) (chat_history : List ChatMessage)
    (participant_descriptions : List String) : Except PyError (Option String) :=
  match chat_history.getLast? with
  | none => .error (.attributeError "NoneType object has no attribute content")
  | some last_message =>
      if last_message.role == .user then
        if chat_history.length == 1 then
          .ok (participant_descriptions.find? (fun agent => agent == "TriageAgent"))
        else
          match (chat_history.get? (chat_history.length - 2)).bind (fun m => m.name) with
          | some last_agent =>
              if last_agent != "" && participant_descriptions.contains last_agent then
                .ok (some last_agent)
              else
                .ok none
          | none => .ok none
      else if last_message.name == some "TriageAgent" then
        match loads last_message.content with
        | none => .ok none
        | some (.obj kvs) =>
            if optJEqStr (kvs.lookup "type") "cqa_result" then
              .ok none
            else if optJEqStr (kvs.lookup "type") "clu_result" then
              match clu_intent (.obj kvs) with
              | some _ =>
                  .ok (participant_descriptions.find? (fun agent => agent == "HeadSupportAgent"))
              | none => .ok none
            else
              .ok none
        | some _ => .ok none
      else if last_message.name == some "HeadSupportAgent" then
        match loads last_message.content with
        | none => .ok none
        | some (.obj kvs) =>
            .ok (participant_descriptions.find? (fun agent => routeEq (kvs.lookup "target_agent") agent))
        | some _ => .ok none
      else
        .ok none

/-!
`SemanticKernelOrchestrator.process_message` (lines 274-331).

Each loop iteration ("attempt") starts a fresh `InProcessRuntime`,
invokes the orchestration with `task=message_content`, awaits the result
with a 35s timeout, and classifies the final message content.  All
responder behaviour — including orchestration exceptions and the timeout
— surfaces at `orchestration_result.get` (the Semantic Kernel SDK's
`invoke` only enqueues the task), so one attempt's behaviour is modelled
by a `GetOutcome`; the environment assigns one to every attempt index.
The inner `except Exception` (lines 314-317) catches every failure of the
`get`/decode/classify phase, records it and retries; the `finally` block
always calls `runtime.stop_when_idle()` once, swallowing any exception it
raises.
-/

/-- What `orchestration_result.get(timeout=35)` does on one attempt:
raise (an orchestration failure or the timeout), or produce a final
message whose content is the given string. -/
inductive GetOutcome where
  | raise (msg : String) : GetOutcome
  | value (content : String) : GetOutcome

/-- The external behaviour visible to `process_message`: per-attempt
outcome of the awaited orchestration, and whether that attempt's
`runtime.stop_when_idle()` raises during teardown. -/
structure OrchestrationEnv where
  get_outcome : Nat → GetOutcome
  teardown_raises : Nat → Bool

/-- What `process_message` gives back to its caller: the classified
success value, the structured error dict `{"error": ...}` built from the
last recorded failure, or the implicit `None` fall-through (reachable
only when `max_retries = 0`, since otherwise any completed loop recorded
a failure). -/
inductive FinalResult where
  | success (v : JVal) : FinalResult
  | error (msg : String) : FinalResult
  | none_result : FinalResult

/-- Observable resource events of one `process_message` call: the
orchestration invocation of attempt `n` (carrying the identity of the
`InProcessRuntime()` created on that iteration and the `task` string),
and the `finally`-block teardown of attempt `n` (recording whether
`stop_when_idle` raised, which the source swallows). -/
inductive Event where
  | invokeEv (attempt : Nat) (runtimeId : Nat) (task : String) : Event
  | teardownEv (attempt : Nat) (raised : Bool) : Event
deriving DecidableEq, Repr

/-- The success-path classification of lines 296-312: decode
`value.content`; on a dict with `type == "cqa_result"` extract
`final_response['response']['answers'][0]['answer']`; on any other dict
return `final_response['response']`.  Every failure (decode error,
`.get` on a non-dict, missing key/index) is an exception caught by the
inner `except` and becomes a retried failure, hence `Except`. -/
def classify_final (loads : String → Option JVal) (content : String) : Except String JVal :=
  match loads content with
  | none => .error "JSONDecodeError"
  | some (.obj kvs) =>
      if optJEqStr (kvs.lookup "type") "cqa_result" then
        match jIndexS (jIndex0 (jIndexS (jIndexS (some (JVal.obj kvs)) "response") "answers")) "answer" with
        | some answer => .ok answer
        | none => .error "KeyError"
      else
        match kvs.lookup "response" with
        | some response => .ok response
        | none => .error "KeyError: response"
  | some _ => .error "AttributeError"

/-- Whether attempt `n` fails, and with which recorded message: `some m`
when `orchestration_result.get` raises or the classification of its
value raises, `none` when the attempt returns a success value. -/
def attempt_failure (loads : String → Option JVal) (env : OrchestrationEnv) (n : Nat) :
    Option String :=
  match env.get_outcome n with
  | .raise msg => some msg
  | .value content =>
      match classify_final loads content with
      | .ok _ => none
      | .error msg => some msg

/-- The retry loop of `process_message` (lines 283-326), with
`fuel = max_retries - retry_count` as the structural measure of the
`while retry_count < self.max_retries` loop.  Returns the final result
together with the ordered trace of invoke/teardown events.  The
`last_exception` accumulator is read only when the loop exhausts. -/
def process_message_go (loads : String → Option JVal) (env : OrchestrationEnv)
    (message_content : String) :
    Nat → Nat → Option String → FinalResult × List Event
  | 0, _, last_exception =>
      (match last_exception with
       | some e => .error ("An error occurred: " ++ e)
       | none => .none_result,
       [])
  | fuel + 1, retry_count, _ =>
      let ev_invoke := Event.invokeEv retry_count retry_count message_content
      let ev_teardown := Event.teardownEv retry_count (env.teardown_raises retry_count)
      match env.get_outcome retry_count with
      | .raise msg =>
          let rest := process_message_go loads env message_content fuel (retry_count + 1) (some msg)
          (rest.1, ev_invoke :: ev_teardown :: rest.2)
      | .value content =>
          match classify_final loads content with
          | .ok v => (.success v, [ev_invoke, ev_teardown])
          | .error msg =>
              let rest := process_message_go loads env message_content fuel (retry_count + 1) (some msg)
              (rest.1, ev_invoke :: ev_teardown :: rest.2)

/-- `SemanticKernelOrchestrator.process_message` (lines 274-331):
`retry_count = 0`, `last_exception = None`, then the retry loop. -/
def process_message (loads : String → Option JVal) (env : OrchestrationEnv)
    (max_retries : Nat) (message_content : String) : FinalResult × List Event :=
  process_message_go loads env message_content max_retries 0 none

/-- Number of orchestration invocations (= loop iterations = attempts)
recorded in a trace. -/
def countInvokes (tr : List Event) : Nat :=
  tr.countP (fun e => match e with | .invokeEv _ _ _ => true | _ => false)

/-- Number of invocations of a given attempt index in a trace. -/
def countInvokesAt (n : Nat) (tr : List Event) : Nat :=
  tr.countP (fun e => match e with | .invokeEv m _ _ => m == n | _ => false)

/-- Number of teardowns of a given attempt index in a trace. -/
def countTeardownsAt (n : Nat) (tr : List Event) : Nat :=
  tr.countP (fun e => match e with | .teardownEv m _ => m == n | _ => false)

/-- Erase the swallowed teardown-failure flag from an event, for stating
that the control flow is independent of teardown failures. -/
def eraseTeardownFlag : Event → Event
  | .teardownEv n _ => .teardownEv n false
  | e => e

/-- Whether an embedded call completed without an uncaught Python
exception. -/
def runsWithoutRaise {α : Type} : Except PyError α → Bool
  | .ok _ => true
  | .error _ => false

/-!  Concrete data for counterexamples and witnesses.  Each content
string below is paired with the value real `json.loads` produces on it
(or `none` where it is not valid JSON). -/

/-- A decode stand-in that fails on every string; agrees with
`json.loads` on non-JSON text such as plain chat sentences. -/
def loadsNone : String → Option JVal := fun _ => none

/-- The JSON text
`{"type": "clu_result", "response": {"result": {"conversations": [{"intents": [{"name": "CancelOrder"}]}]}}}`
(braces written as hex escapes). -/
def cluContent : String :=
  "\x7b\"type\": \"clu_result\", \"response\": \x7b\"result\": \x7b\"conversations\": [\x7b\"intents\": [\x7b\"name\": \"CancelOrder\"\x7d]\x7d]\x7d\x7d\x7d"

/-- `json.loads` of `cluContent`. -/
def cluVal : JVal :=
  .obj [("type", .str "clu_result"),
        ("response", .obj [("result", .obj [("conversations",
          .arr [.obj [("intents", .arr [.obj [("name", .str "CancelOrder")]])]])])])]

/-- The JSON text `{"type": "cqa_result"}`. -/
def cqaContent : String := "\x7b\"type\": \"cqa_result\"\x7d"

/-- The JSON text `{"target_agent": "OrderStatusAgent"}`. -/
def routeContent : String := "\x7b\"target_agent\": \"OrderStatusAgent\"\x7d"

/-- The JSON text `{"terminated": "True"}`. -/
def terminatedContent : String := "\x7b\"terminated\": \"True\"\x7d"

/-- A decode stand-in agreeing with real `json.loads` on every string it
is applied to in this file: `"[1]"` decodes to the array `[1]`, `"5"` to
the number `5`, the object texts above to the corresponding objects, and
any other string used here is not valid JSON. -/
def loadsJson : String → Option JVal := fun s =>
  if s = "[1]" then some (.arr [.num 1])
  else if s = "5" then some (.num 5)
  else if s = cluContent then some cluVal
  else if s = cqaContent then some (.obj [("type", .str "cqa_result")])
  else if s = routeContent then some (.obj [("target_agent", .str "OrderStatusAgent")])
  else if s = terminatedContent then some (.obj [("terminated", .str "True")])
  else none

/-!  Helper lemmas. -/

/-- `next((agent for agent in keys if agent == x), None)` returns `x`
exactly when `x` is among the keys. -/
theorem find_eq_of_contains (ps : List String) (x : String) :
    ps.find? (fun a => a == x) = if ps.contains x then some x else none := by
  induction ps with
  | nil => rfl
  | cons a ps ih =>
      by_cases h : a = x
      · subst h
        simp [List.find?]
      · have ha : (a == x) = false := beq_eq_false_iff_ne.mpr h
        simp only [List.find?, ha, List.contains_cons]
        rw [ih]
        have hx : (x == a) = false := beq_eq_false_iff_ne.mpr (fun hxa => h hxa.symm)
        simp [hx]

/-!  Claim C2 — termination policy. -/

/-- Claim C2, counterexample: the claim says unparseable content makes
`should_terminate` return `false`, but content that is valid JSON with a
non-object top level (here the text `"[1]"`, which `json.loads` decodes
to the array `[1]`) makes the source raise `AttributeError` at
`parsed_content.get("terminated")` — the `except` clause only catches
`json.JSONDecodeError` — so it returns neither `true` nor `false`. -/
theorem should_terminate_nonobject_cex :
    should_terminate loadsJson [⟨.assistant, some "OrderStatusAgent", "[1]"⟩] =
      .error (.attributeError "object has no attribute get") ∧
    (Except.error (.attributeError "object has no attribute get") : Except PyError Bool) ≠
      .ok false := by
  refine ⟨rfl, fun h => ?_⟩
  exact Except.noConfusion h

/-- Claim C2, amended: `should_terminate` returns `true` iff the last
message's content decodes to a JSON object carrying the string `"True"`
under `terminated` or `need_more_info`; it returns `false` when decoding
fails or the object lacks those flags; but when the content decodes to
valid JSON whose top level is not an object it raises `AttributeError`
instead of returning. -/
theorem should_terminate_flags (loads : String → Option JVal)
    (chat_history : List ChatMessage) (m : ChatMessage)
    (hm : chat_history.getLast? = some m) :
    should_terminate loads chat_history =
      (match loads m.content with
       | none => .ok false
       | some (.obj kvs) =>
           .ok (optJEqStr (kvs.lookup "terminated") "True" ||
                optJEqStr (kvs.lookup "need_more_info") "True")
       | some _ => .error (.attributeError "object has no attribute get")) := by
  have hred : should_terminate loads chat_history =
      (match loads m.content with
       | none => .ok false
       | some (.obj kvs) =>
           if optJEqStr (kvs.lookup "terminated") "True" ||
              optJEqStr (kvs.lookup "need_more_info") "True" then .ok true else .ok false
       | some _ => .error (.attributeError "object has no attribute get")) := by
    unfold should_terminate
    rw [hm]
  rw [hred]
  cases hl : loads m.content with
  | none => rfl
  | some v =>
      cases v with
      | obj kvs =>
          by_cases h : (optJEqStr (kvs.lookup "terminated") "True" ||
              optJEqStr (kvs.lookup "need_more_info") "True") = true
          · simp [h]
          · simp only [Bool.not_eq_true] at h
            simp [h]
      | null => rfl
      | bool b => rfl
      | num n => rfl
      | str s => rfl
      | arr xs => rfl

/-- Claim C2, witness: a handler reply carrying `terminated: "True"`
terminates the chat. -/
theorem should_terminate_flags_witness :
    should_terminate loadsJson [⟨.assistant, some "OrderStatusAgent", terminatedContent⟩] =
      .ok true := by
  have h := should_terminate_flags loadsJson
    [⟨.assistant, some "OrderStatusAgent", terminatedContent⟩]
    ⟨.assistant, some "OrderStatusAgent", terminatedContent⟩ rfl
  rw [h]
  rfl

/-!  Claim C3 — decode totality. -/

/-- Claim C3, counterexample: evaluating `should_terminate` on the
content `"5"` (valid JSON, decoding to the number `5`) raises
`AttributeError` — decoding a responder reply is not total. -/
theorem decode_totality_cex :
    should_terminate loadsJson [⟨.assistant, some "OrderCancelAgent", "5"⟩] =
      .error (.attributeError "object has no attribute get") ∧
    runsWithoutRaise
      (should_terminate loadsJson [⟨.assistant, some "OrderCancelAgent", "5"⟩]) = false :=
  ⟨rfl, rfl⟩

/-- Claim C3, amended: on any history with a last message,
`select_next_agent` never raises (all of its decode and subscript
failures are caught by `except Exception` handlers), and
`should_terminate` completes without raising exactly when the content
fails to decode or decodes to a JSON object; on content decoding to a
non-object JSON value it raises `AttributeError`. -/
theorem decode_totality (loads : String → Option JVal) (chat_history : List ChatMessage)
    (ps : List String) (m : ChatMessage) (hm : chat_history.getLast? = some m) :
    runsWithoutRaise (select_next_agent loads chat_history ps) = true ∧
    runsWithoutRaise (should_terminate loads chat_history) =
      (match loads m.content with
       | none => true
       | some v => v.isObj) := by
  constructor
  · unfold select_next_agent
    split
    · next heq => rw [hm] at heq; exact Option.noConfusion heq
    · next last_message heq =>
        repeat' split
        all_goals rfl
  · rw [should_terminate_flags loads chat_history m hm]
    cases hl : loads m.content with
    | none => rfl
    | some v => cases v <;> rfl

/-- Claim C3, witness: on a non-JSON content string both functions
complete without raising. -/
theorem decode_totality_witness :
    runsWithoutRaise
      (select_next_agent loadsNone [⟨.assistant, some "TriageAgent", "plain text"⟩]
        ["TriageAgent"]) = true ∧
    runsWithoutRaise
      (should_terminate loadsNone [⟨.assistant, some "TriageAgent", "plain text"⟩]) = true := by
  have h := decode_totality loadsNone [⟨.assistant, some "TriageAgent", "plain text"⟩]
    ["TriageAgent"] ⟨.assistant, some "TriageAgent", "plain text"⟩ rfl
  refine ⟨h.1, ?_⟩
  rw [h.2]
  rfl

/-!  Claim C4 — first-turn routing. -/

/-- Claim C4, counterexample: on a length-1 user-authored history with a
set of known responders that does not contain `"TriageAgent"`, the
source's `next((agent for agent in participant_descriptions.keys() if
agent == "TriageAgent"), None)` returns `None`, not the Classifier — the
selection is not unconditional. -/
theorem first_turn_cex :
    select_next_agent loadsNone [⟨.user, none, "hi"⟩] [] = .ok none ∧
    (Except.ok (some "TriageAgent") : Except PyError (Option String)) ≠ .ok none := by
  refine ⟨rfl, fun h => ?_⟩
  exact Option.noConfusion (Except.ok.inj h)

/-- Claim C4, amended: for every history of length 1 whose sole entry is
user-authored, `select_next_agent` returns `TriageAgent` when
`"TriageAgent"` is among the known responders, and `None` otherwise. -/
theorem first_turn_routing (loads : String → Option JVal) (m : ChatMessage)
    (ps : List String) (hrole : m.role = .user) :
    select_next_agent loads [m] ps =
      .ok (if ps.contains "TriageAgent" then some "TriageAgent" else none) := by
  have h1 : (m.role == AuthorRole.user) = true := by rw [hrole]; rfl
  unfold select_next_agent
  simp only [List.getLast?_singleton, List.length_singleton, h1, if_true,
    beq_self_eq_true]
  rw [find_eq_of_contains]

/-- Claim C4, witness: with the Classifier registered, the first turn
routes to it. -/
theorem first_turn_routing_witness :
    select_next_agent loadsNone [⟨.user, none, "hi"⟩] ["TriageAgent", "HeadSupportAgent"] =
      .ok (some "TriageAgent") := by
  have h := first_turn_routing loadsNone ⟨.user, none, "hi"⟩ ["TriageAgent", "HeadSupportAgent"] rfl
  rw [h]
  rfl

/-!  Claim C5 — Classifier-reply routing. -/

/-- Claim C5, counterexample: a Classifier-authored `clu_result` envelope
with a well-formed intent path does not route to the Dispatcher when
`"HeadSupportAgent"` is not among the known responders — the source's
`next(...)` over the participant keys returns `None` instead. -/
theorem triage_clu_cex :
    select_next_agent loadsJson [⟨.assistant, some "TriageAgent", cluContent⟩] ["TriageAgent"] =
      .ok none ∧
    (Except.ok (some "HeadSupportAgent") : Except PyError (Option String)) ≠ .ok none := by
  refine ⟨rfl, fun h => ?_⟩
  exact Option.noConfusion (Except.ok.inj h)

/-- Claim C5, amended: for a history whose last entry is
Classifier-authored, a parseable `cqa_result` envelope yields `None`; a
parseable `clu_result` envelope carrying the expected intent path yields
the Dispatcher (`HeadSupportAgent`) when it is among the known
responders and `None` otherwise (also `None` when the intent path is
missing, which the source reaches via a caught exception); unparseable
content, non-object JSON, or an unrecognized tag yields `None`. -/
theorem triage_routing (loads : String → Option JVal) (chat_history : List ChatMessage)
    (ps : List String) (m : ChatMessage) (hm : chat_history.getLast? = some m)
    (hrole : m.role ≠ .user) (hname : m.name = some "TriageAgent") :
    select_next_agent loads chat_history ps =
      .ok (match loads m.content with
           | some (.obj kvs) =>
               if optJEqStr (kvs.lookup "type") "cqa_result" then none
               else if optJEqStr (kvs.lookup "type") "clu_result" then
                 (match clu_intent (.obj kvs) with
                  | some _ =>
                      if ps.contains "HeadSupportAgent" then some "HeadSupportAgent" else none
                  | none => none)
               else none
           | _ => none) := by
  have h1 : (m.role == AuthorRole.user) = false := by
    cases hr : m.role
    · exact absurd hr hrole
    all_goals rfl
  have h2 : (m.name == some "TriageAgent") = true := by rw [hname]; rfl
  have hred : select_next_agent loads chat_history ps =
      (match loads m.content with
       | none => .ok none
       | some (.obj kvs) =>
           if optJEqStr (kvs.lookup "type") "cqa_result" then
             .ok none
           else if optJEqStr (kvs.lookup "type") "clu_result" then
             match clu_intent (.obj kvs) with
             | some _ => .ok (ps.find? (fun agent => agent == "HeadSupportAgent"))
             | none => .ok none
           else
             .ok none
       | some _ => .ok none) := by
    unfold select_next_agent
    rw [hm]
    simp only [h1, h2, Bool.false_eq_true, if_false, if_true]
  rw [hred]
  cases hl : loads m.content with
  | none => rfl
  | some v =>
      cases v with
      | obj kvs =>
          by_cases hc : optJEqStr (kvs.lookup "type") "cqa_result" = true
          · simp [hc]
          · simp only [Bool.not_eq_true] at hc
            by_cases hc2 : optJEqStr (kvs.lookup "type") "clu_result" = true
            · cases hint : clu_intent (.obj kvs) with
              | some i => simp [hc, hc2, hint, find_eq_of_contains]
              | none => simp [hc, hc2, hint]
            · simp only [Bool.not_eq_true] at hc2
              simp [hc, hc2]
      | null => rfl
      | bool b => rfl
      | num n => rfl
      | str s => rfl
      | arr xs => rfl

/-- Claim C5, witness: with the Dispatcher registered, a Classifier
`clu_result` envelope routes to it, and a `cqa_result` envelope yields
`None`. -/
theorem triage_routing_witness :
    select_next_agent loadsJson [⟨.assistant, some "TriageAgent", cluContent⟩]
      ["TriageAgent", "HeadSupportAgent"] = .ok (some "HeadSupportAgent") ∧
    select_next_agent loadsJson [⟨.assistant, some "TriageAgent", cqaContent⟩]
      ["TriageAgent", "HeadSupportAgent"] = .ok none := by
  constructor
  · have h := triage_routing loadsJson [⟨.assistant, some "TriageAgent", cluContent⟩]
      ["TriageAgent", "HeadSupportAgent"] ⟨.assistant, some "TriageAgent", cluContent⟩ rfl
      (fun hr => AuthorRole.noConfusion hr) rfl
    rw [h]
    rfl
  · have h := triage_routing loadsJson [⟨.assistant, some "TriageAgent", cqaContent⟩]
      ["TriageAgent", "HeadSupportAgent"] ⟨.assistant, some "TriageAgent", cqaContent⟩ rfl
      (fun hr => AuthorRole.noConfusion hr) rfl
    rw [h]
    rfl

/-!  Claim C6 — Dispatcher-reply routing. -/

/-- Claim C6, confirmed: for a history whose last entry is
Dispatcher-authored (`HeadSupportAgent`) with content decoding to a JSON
object, `select_next_agent` returns the string named by `target_agent`
exactly when it is among the known responders, and `None` otherwise —
including when the `target_agent` field is absent or is not a string. -/
theorem head_support_routing (loads : String → Option JVal)
    (chat_history : List ChatMessage) (ps : List String) (m : ChatMessage)
    (kvs : List (String × JVal)) (hm : chat_history.getLast? = some m)
    (hrole : m.role ≠ .user) (hname : m.name = some "HeadSupportAgent")
    (hloads : loads m.content = some (.obj kvs)) :
    select_next_agent loads chat_history ps =
      .ok (match kvs.lookup "target_agent" with
           | some (.str target) => if ps.contains target then some target else none
           | _ => none) := by
  have h1 : (m.role == AuthorRole.user) = false := by
    cases hr : m.role
    · exact absurd hr hrole
    all_goals rfl
  have h2 : (m.name == some "TriageAgent") = false := by rw [hname]; rfl
  have h3 : (m.name == some "HeadSupportAgent") = true := by rw [hname]; rfl
  have hred : select_next_agent loads chat_history ps =
      .ok (ps.find? (fun agent => routeEq (kvs.lookup "target_agent") agent)) := by
    unfold select_next_agent
    rw [hm]
    simp only [h1, h2, h3, Bool.false_eq_true, if_false, if_true]
    rw [hloads]
  rw [hred]
  cases hr : kvs.lookup "target_agent" with
  | none =>
      have : ps.find? (fun agent => routeEq none agent) = none :=
        List.find?_eq_none.mpr (fun x _ => by simp [routeEq])
      simp [this]
  | some v =>
      cases v with
      | str target =>
          have : (fun agent => routeEq (some (.str target)) agent) =
              (fun agent => agent == target) := by
            funext agent
            rfl
          rw [this, find_eq_of_contains]
      | null =>
          have : ps.find? (fun agent => routeEq (some JVal.null) agent) = none :=
            List.find?_eq_none.mpr (fun x _ => by simp [routeEq])
          simp [this]
      | bool b =>
          have : ps.find? (fun agent => routeEq (some (JVal.bool b)) agent) = none :=
            List.find?_eq_none.mpr (fun x _ => by simp [routeEq])
          simp [this]
      | num n =>
          have : ps.find? (fun agent => routeEq (some (JVal.num n)) agent) = none :=
            List.find?_eq_none.mpr (fun x _ => by simp [routeEq])
          simp [this]
      | arr xs =>
          have : ps.find? (fun agent => routeEq (some (JVal.arr xs)) agent) = none :=
            List.find?_eq_none.mpr (fun x _ => by simp [routeEq])
          simp [this]
      | obj kvs2 =>
          have : ps.find? (fun agent => routeEq (some (JVal.obj kvs2)) agent) = none :=
            List.find?_eq_none.mpr (fun x _ => by simp [routeEq])
          simp [this]

/-- Claim C6, witness: a dispatch decision naming a registered leaf
handler routes to it; one naming an unregistered handler yields `None`. -/
theorem head_support_routing_witness :
    select_next_agent loadsJson [⟨.assistant, some "HeadSupportAgent", routeContent⟩]
      ["TriageAgent", "HeadSupportAgent", "OrderStatusAgent"] = .ok (some "OrderStatusAgent") ∧
    select_next_agent loadsJson [⟨.assistant, some "HeadSupportAgent", routeContent⟩]
      ["TriageAgent", "HeadSupportAgent"] = .ok none := by
  constructor
  · have h := head_support_routing loadsJson
      [⟨.assistant, some "HeadSupportAgent", routeContent⟩]
      ["TriageAgent", "HeadSupportAgent", "OrderStatusAgent"]
      ⟨.assistant, some "HeadSupportAgent", routeContent⟩
      [("target_agent", .str "OrderStatusAgent")] rfl
      (fun hr => AuthorRole.noConfusion hr) rfl rfl
    rw [h]
    rfl
  · have h := head_support_routing loadsJson
      [⟨.assistant, some "HeadSupportAgent", routeContent⟩]
      ["TriageAgent", "HeadSupportAgent"]
      ⟨.assistant, some "HeadSupportAgent", routeContent⟩
      [("target_agent", .str "OrderStatusAgent")] rfl
      (fun hr => AuthorRole.noConfusion hr) rfl rfl
    rw [h]
    rfl

/-!  Claim C7 — pinned-responder continuity. -/

/-- Claim C7, counterexample: a follow-up user message after a reply
whose author name is the empty string is not routed back to that author
even when the empty string is among the known responders — Python's
truthiness test `if last_agent and last_agent in participant_descriptions`
rejects the empty name, so the source returns `None`. -/
theorem pinned_empty_name_cex :
    select_next_agent loadsNone [⟨.assistant, some "", "x"⟩, ⟨.user, none, "again"⟩] [""] =
      .ok none ∧
    (Except.ok (some "") : Except PyError (Option String)) ≠ .ok none := by
  refine ⟨rfl, fun h => ?_⟩
  exact Option.noConfusion (Except.ok.inj h)

/-- Claim C7, amended: for every history of length at least 2 whose last
entry is user-authored, `select_next_agent` returns the author name of
the entry at position `len(history)-2` when that name is present,
non-empty and among the known responders, and `None` otherwise —
bypassing the Classifier and Dispatcher. -/
theorem pinned_routing (loads : String → Option JVal) (chat_history : List ChatMessage)
    (ps : List String) (m : ChatMessage) (hlen : 2 ≤ chat_history.length)
    (hm : chat_history.getLast? = some m) (hrole : m.role = .user) :
    select_next_agent loads chat_history ps =
      .ok (match (chat_history.get? (chat_history.length - 2)).bind (fun pm => pm.name) with
           | some name => if name != "" && ps.contains name then some name else none
           | none => none) := by
  have h1 : (m.role == AuthorRole.user) = true := by rw [hrole]; rfl
  have h2 : (chat_history.length == 1) = false := by
    have : chat_history.length ≠ 1 := by omega
    exact beq_eq_false_iff_ne.mpr this
  have hred : select_next_agent loads chat_history ps =
      (match (chat_history.get? (chat_history.length - 2)).bind (fun pm => pm.name) with
       | some last_agent =>
           if last_agent != "" && ps.contains last_agent then .ok (some last_agent)
           else .ok none
       | none => .ok none) := by
    unfold select_next_agent
    rw [hm]
    simp only [h1, h2, Bool.false_eq_true, if_false, if_true]
  rw [hred]
  cases hsc : (chat_history.get? (chat_history.length - 2)).bind (fun pm => pm.name) with
  | none => rfl
  | some name =>
      show (if (name != "" && ps.contains name) = true then Except.ok (some name)
            else Except.ok none) =
          Except.ok (if (name != "" && ps.contains name) = true then some name else none)
      by_cases hc : (name != "" && ps.contains name) = true
      · rw [if_pos hc, if_pos hc]
      · rw [if_neg hc, if_neg hc]

/-- Claim C7, witness: a follow-up user message routes back to the
handler that authored the second-to-last entry when it is a known
responder. -/
theorem pinned_routing_witness :
    select_next_agent loadsNone
      [⟨.user, none, "cancel my order"⟩,
       ⟨.assistant, some "OrderCancelAgent", "need more info"⟩,
       ⟨.user, none, "order 1234"⟩]
      ["TriageAgent", "HeadSupportAgent", "OrderCancelAgent"] =
      .ok (some "OrderCancelAgent") := by
  have h := pinned_routing loadsNone
    [⟨.user, none, "cancel my order"⟩,
     ⟨.assistant, some "OrderCancelAgent", "need more info"⟩,
     ⟨.user, none, "order 1234"⟩]
    ["TriageAgent", "HeadSupportAgent", "OrderCancelAgent"]
    ⟨.user, none, "order 1234"⟩ (by decide) rfl rfl
  rw [h]
  rfl

/-!  Claim C10 — final-outcome filtering. -/

/-- Claim C10, confirmed: the message produced by `filter_results`
carries exactly the content of the last history entry, unchanged; on an
empty history it carries the fixed text `"No messages in chat history."`
rather than an error. -/
theorem filter_results_last_content (chat_history : List ChatMessage) (m : ChatMessage)
    (hm : chat_history.getLast? = some m) :
    (filter_results chat_history).content = m.content ∧
    (filter_results []).content = "No messages in chat history." := by
  constructor
  · unfold filter_results
    rw [hm]
  · rfl

/-- Claim C10, witness: a two-message history filters to the last
message's content. -/
theorem filter_results_last_content_witness :
    (filter_results [⟨.user, none, "hi"⟩, ⟨.assistant, some "TriageAgent", "hello"⟩]).content =
      "hello" := by
  have h := filter_results_last_content
    [⟨.user, none, "hi"⟩, ⟨.assistant, some "TriageAgent", "hello"⟩]
    ⟨.assistant, some "TriageAgent", "hello"⟩ rfl
  exact h.1


/-!  Retry-loop step equations and lemmas. -/

/-- One loop iteration whose awaited orchestration raises. -/
theorem process_message_go_step_raise (loads : String → Option JVal)
    (env : OrchestrationEnv) (msg : String) (fuel retry : Nat) (last : Option String)
    (msg2 : String) (hg : env.get_outcome retry = .raise msg2) :
    process_message_go loads env msg (fuel + 1) retry last =
      ((process_message_go loads env msg fuel (retry + 1) (some msg2)).1,
       Event.invokeEv retry retry msg ::
         Event.teardownEv retry (env.teardown_raises retry) ::
           (process_message_go loads env msg fuel (retry + 1) (some msg2)).2) := by
  simp only [process_message_go, hg]

/-- One loop iteration whose awaited orchestration succeeds and whose
final message classifies successfully. -/
theorem process_message_go_step_ok (loads : String → Option JVal)
    (env : OrchestrationEnv) (msg : String) (fuel retry : Nat) (last : Option String)
    (content : String) (v : JVal) (hg : env.get_outcome retry = .value content)
    (hc : classify_final loads content = .ok v) :
    process_message_go loads env msg (fuel + 1) retry last =
      (.success v,
       [Event.invokeEv retry retry msg,
        Event.teardownEv retry (env.teardown_raises retry)]) := by
  simp only [process_message_go, hg, hc]

/-- One loop iteration whose awaited orchestration succeeds but whose
final message fails classification. -/
theorem process_message_go_step_error (loads : String → Option JVal)
    (env : OrchestrationEnv) (msg : String) (fuel retry : Nat) (last : Option String)
    (content : String) (msg2 : String) (hg : env.get_outcome retry = .value content)
    (hc : classify_final loads content = .error msg2) :
    process_message_go loads env msg (fuel + 1) retry last =
      ((process_message_go loads env msg fuel (retry + 1) (some msg2)).1,
       Event.invokeEv retry retry msg ::
         Event.teardownEv retry (env.teardown_raises retry) ::
           (process_message_go loads env msg fuel (retry + 1) (some msg2)).2) := by
  simp only [process_message_go, hg, hc]

/-- The retry loop performs at most `fuel` orchestration invocations. -/
theorem process_message_go_invokes_le (loads : String → Option JVal)
    (env : OrchestrationEnv) (msg : String) :
    ∀ fuel retry last,
      countInvokes (process_message_go loads env msg fuel retry last).2 ≤ fuel := by
  intro fuel
  induction fuel with
  | zero =>
      intro retry last
      cases last <;> simp [process_message_go, countInvokes]
  | succ fuel ih =>
      intro retry last
      cases hg : env.get_outcome retry with
      | raise msg2 =>
          rw [process_message_go_step_raise loads env msg fuel retry last msg2 hg]
          have h := ih (retry + 1) (some msg2)
          simp [countInvokes, List.countP_cons] at h ⊢
          omega
      | value content =>
          cases hc : classify_final loads content with
          | ok v =>
              rw [process_message_go_step_ok loads env msg fuel retry last content v hg hc]
              simp [countInvokes, List.countP_cons, List.countP_nil]
          | error msg2 =>
              rw [process_message_go_step_error loads env msg fuel retry last content msg2 hg hc]
              have h := ih (retry + 1) (some msg2)
              simp [countInvokes, List.countP_cons] at h ⊢
              omega

/-- When every attempt in the remaining window fails, the loop returns
the structured error built from the failure recorded on the final
attempt. -/
theorem process_message_go_all_fail (loads : String → Option JVal)
    (env : OrchestrationEnv) (msg : String) :
    ∀ fuel retry last m,
      (∀ n, n < fuel → attempt_failure loads env (retry + n) ≠ none) →
      attempt_failure loads env (retry + fuel - 1) = some m →
      0 < fuel →
      (process_message_go loads env msg fuel retry last).1 =
        .error ("An error occurred: " ++ m) := by
  intro fuel
  induction fuel with
  | zero =>
      intro retry last m _ _ h0
      exact absurd h0 (Nat.lt_irrefl 0)
  | succ fuel ih =>
      intro retry last m hfail hlast _
      have h0 : attempt_failure loads env retry ≠ none := by
        have h := hfail 0 (Nat.succ_pos _)
        simpa using h
      have step : ∀ msg2 : String, attempt_failure loads env retry = some msg2 →
          (process_message_go loads env msg (fuel + 1) retry last).1 =
            (process_message_go loads env msg fuel (retry + 1) (some msg2)).1 := by
        intro msg2 hm0
        unfold attempt_failure at hm0
        cases hg : env.get_outcome retry with
        | raise msg3 =>
            simp only [hg] at hm0
            have hmm : msg3 = msg2 := Option.some.inj hm0
            subst hmm
            rw [process_message_go_step_raise loads env msg fuel retry last msg3 hg]
        | value content =>
            simp only [hg] at hm0
            cases hc : classify_final loads content with
            | ok v =>
                rw [hc] at hm0
                exact Option.noConfusion hm0
            | error msg3 =>
                rw [hc] at hm0
                have hmm : msg3 = msg2 := Option.some.inj hm0
                subst hmm
                rw [process_message_go_step_error loads env msg fuel retry last content msg3 hg hc]
      cases hm0 : attempt_failure loads env retry with
      | none => exact absurd hm0 h0
      | some msg2 =>
          rw [step msg2 hm0]
          cases fuel with
          | zero =>
              have he : retry + 1 - 1 = retry := by omega
              rw [he, hm0] at hlast
              have hmm : m = msg2 := (Option.some.inj hlast).symm
              subst hmm
              simp [process_message_go]
          | succ f =>
              exact ih (retry + 1) (some msg2) m
                (fun n hn => by
                  have h := hfail (n + 1) (by omega)
                  have he : retry + (n + 1) = retry + 1 + n := by omega
                  rwa [he] at h)
                (by
                  have he : retry + 1 + (f + 1) - 1 = retry + (f + 1 + 1) - 1 := by omega
                  rw [he]
                  exact hlast)
                (Nat.succ_pos _)

/-!  Claim C1 — retry bound and exhaustion behaviour. -/

/-- An environment in which every attempt's awaited orchestration raises
(e.g. times out). -/
def envAllFail : OrchestrationEnv :=
  { get_outcome := fun _ => .raise "Timeout", teardown_raises := fun _ => false }

/-- Claim C1, confirmed: for every behaviour of the external responders
(every environment) `process_message` performs at most `max_retries`
orchestration invocations, and when every attempt fails it returns the
structured error result built from the last recorded failure.  It never
raises to its caller: every exception of the awaited phase is modelled in
`attempt_failure` and consumed by the loop, which is why the result type
`FinalResult` has no exception alternative — the source's inner `except
Exception` (lines 314-317) catches each one and converts it into a
recorded retry. -/
theorem process_message_retry_bound (loads : String → Option JVal)
    (env : OrchestrationEnv) (max_retries : Nat) (msg : String) (m : String)
    (hpos : 0 < max_retries)
    (hfail : ∀ n, n < max_retries → attempt_failure loads env n ≠ none)
    (hlast : attempt_failure loads env (max_retries - 1) = some m) :
    (∀ env2 : OrchestrationEnv,
       countInvokes (process_message loads env2 max_retries msg).2 ≤ max_retries) ∧
    (process_message loads env max_retries msg).1 =
      .error ("An error occurred: " ++ m) := by
  constructor
  · intro env2
    exact process_message_go_invokes_le loads env2 msg max_retries 0 none
  · unfold process_message
    exact process_message_go_all_fail loads env msg max_retries 0 none m
      (fun n hn => by
        have h := hfail n hn
        simpa using h)
      (by simpa using hlast)
      hpos

/-- Claim C1, witness: with three attempts all timing out,
`process_message` makes at most three invocations and returns the
structured error carrying the last failure. -/
theorem process_message_retry_bound_witness :
    countInvokes (process_message loadsNone envAllFail 3 "hi").2 ≤ 3 ∧
    (process_message loadsNone envAllFail 3 "hi").1 =
      .error "An error occurred: Timeout" := by
  have h := process_message_retry_bound loadsNone envAllFail 3 "hi" "Timeout"
    (by decide)
    (fun n _ => by
      intro hcon
      rw [show attempt_failure loadsNone envAllFail n = some "Timeout" from rfl] at hcon
      exact Option.noConfusion hcon)
    rfl
  refine ⟨h.1 envAllFail, ?_⟩
  rw [h.2]
  rfl

/-!  Claim C8 — teardown exactly once, failures swallowed. -/

/-- The loop's result and its control flow (the trace up to the
swallowed teardown-failure flags) are independent of whether any
teardown raises. -/
theorem process_message_go_td_independent (loads : String → Option JVal)
    (g : Nat → GetOutcome) (td td2 : Nat → Bool) (msg : String) :
    ∀ fuel retry last,
      (process_message_go loads ⟨g, td⟩ msg fuel retry last).1 =
        (process_message_go loads ⟨g, td2⟩ msg fuel retry last).1 ∧
      (process_message_go loads ⟨g, td⟩ msg fuel retry last).2.map eraseTeardownFlag =
        (process_message_go loads ⟨g, td2⟩ msg fuel retry last).2.map eraseTeardownFlag := by
  intro fuel
  induction fuel with
  | zero =>
      intro retry last
      exact ⟨rfl, rfl⟩
  | succ fuel ih =>
      intro retry last
      have hg1 : (OrchestrationEnv.mk g td).get_outcome retry = g retry := rfl
      have hg2 : (OrchestrationEnv.mk g td2).get_outcome retry = g retry := rfl
      cases hg : g retry with
      | raise msg2 =>
          rw [process_message_go_step_raise loads ⟨g, td⟩ msg fuel retry last msg2 (hg1.trans hg),
              process_message_go_step_raise loads ⟨g, td2⟩ msg fuel retry last msg2 (hg2.trans hg)]
          obtain ⟨ih1, ih2⟩ := ih (retry + 1) (some msg2)
          exact ⟨ih1, by simp [eraseTeardownFlag, ih2]⟩
      | value content =>
          cases hc : classify_final loads content with
          | ok v =>
              rw [process_message_go_step_ok loads ⟨g, td⟩ msg fuel retry last content v
                    (hg1.trans hg) hc,
                  process_message_go_step_ok loads ⟨g, td2⟩ msg fuel retry last content v
                    (hg2.trans hg) hc]
              exact ⟨rfl, by simp [eraseTeardownFlag]⟩
          | error msg2 =>
              rw [process_message_go_step_error loads ⟨g, td⟩ msg fuel retry last content msg2
                    (hg1.trans hg) hc,
                  process_message_go_step_error loads ⟨g, td2⟩ msg fuel retry last content msg2
                    (hg2.trans hg) hc]
              obtain ⟨ih1, ih2⟩ := ih (retry + 1) (some msg2)
              exact ⟨ih1, by simp [eraseTeardownFlag, ih2]⟩

/-- Attempt indices below the loop's starting counter never appear in
its trace. -/
theorem process_message_go_counts_lt (loads : String → Option JVal)
    (env : OrchestrationEnv) (msg : String) :
    ∀ fuel retry last n, n < retry →
      countInvokesAt n (process_message_go loads env msg fuel retry last).2 = 0 ∧
      countTeardownsAt n (process_message_go loads env msg fuel retry last).2 = 0 := by
  intro fuel
  induction fuel with
  | zero =>
      intro retry last n _
      cases last <;> simp [process_message_go, countInvokesAt, countTeardownsAt]
  | succ fuel ih =>
      intro retry last n hn
      have hne : (retry == n) = false := beq_eq_false_iff_ne.mpr (by omega)
      cases hg : env.get_outcome retry with
      | raise msg2 =>
          rw [process_message_go_step_raise loads env msg fuel retry last msg2 hg]
          obtain ⟨ih1, ih2⟩ := ih (retry + 1) (some msg2) n (by omega)
          constructor
          · simp only [countInvokesAt, List.countP_cons] at ih1 ⊢
            simp [hne, ih1]
          · simp only [countTeardownsAt, List.countP_cons] at ih2 ⊢
            simp [hne, ih2]
      | value content =>
          cases hc : classify_final loads content with
          | ok v =>
              rw [process_message_go_step_ok loads env msg fuel retry last content v hg hc]
              constructor
              · simp [countInvokesAt, List.countP_cons, hne]
              · simp [countTeardownsAt, List.countP_cons, hne]
          | error msg2 =>
              rw [process_message_go_step_error loads env msg fuel retry last content msg2 hg hc]
              obtain ⟨ih1, ih2⟩ := ih (retry + 1) (some msg2) n (by omega)
              constructor
              · simp only [countInvokesAt, List.countP_cons] at ih1 ⊢
                simp [hne, ih1]
              · simp only [countTeardownsAt, List.countP_cons] at ih2 ⊢
                simp [hne, ih2]

/-- In any trace of the loop, every attempt index has exactly as many
teardowns as invocations, and is invoked at most once. -/
theorem process_message_go_counts (loads : String → Option JVal)
    (env : OrchestrationEnv) (msg : String) :
    ∀ fuel retry last n,
      countTeardownsAt n (process_message_go loads env msg fuel retry last).2 =
        countInvokesAt n (process_message_go loads env msg fuel retry last).2 ∧
      countInvokesAt n (process_message_go loads env msg fuel retry last).2 ≤ 1 := by
  intro fuel
  induction fuel with
  | zero =>
      intro retry last n
      cases last <;> simp [process_message_go, countInvokesAt, countTeardownsAt]
  | succ fuel ih =>
      intro retry last n
      cases hg : env.get_outcome retry with
      | raise msg2 =>
          rw [process_message_go_step_raise loads env msg fuel retry last msg2 hg]
          obtain ⟨ih1, ih2⟩ := ih (retry + 1) (some msg2) n
          by_cases hn : retry = n
          · subst hn
            obtain ⟨hz1, hz2⟩ := process_message_go_counts_lt loads env msg fuel (retry + 1)
              (some msg2) retry (by omega)
            constructor
            · simp only [countInvokesAt, countTeardownsAt, List.countP_cons] at hz1 hz2 ⊢
              simp [hz1, hz2]
            · simp only [countInvokesAt, List.countP_cons] at hz1 ⊢
              simp [hz1]
          · have hne : (retry == n) = false := beq_eq_false_iff_ne.mpr hn
            constructor
            · simp only [countInvokesAt, countTeardownsAt, List.countP_cons] at ih1 ⊢
              simp [hne, ih1]
            · simp only [countInvokesAt, List.countP_cons] at ih2 ⊢
              simp [hne, ih2]
      | value content =>
          cases hc : classify_final loads content with
          | ok v =>
              rw [process_message_go_step_ok loads env msg fuel retry last content v hg hc]
              by_cases hn : retry = n
              · subst hn
                constructor
                · simp [countInvokesAt, countTeardownsAt, List.countP_cons]
                · simp [countInvokesAt, List.countP_cons]
              · have hne : (retry == n) = false := beq_eq_false_iff_ne.mpr hn
                constructor
                · simp [countInvokesAt, countTeardownsAt, List.countP_cons, hne]
                · simp [countInvokesAt, List.countP_cons, hne]
          | error msg2 =>
              rw [process_message_go_step_error loads env msg fuel retry last content msg2 hg hc]
              obtain ⟨ih1, ih2⟩ := ih (retry + 1) (some msg2) n
              by_cases hn : retry = n
              · subst hn
                obtain ⟨hz1, hz2⟩ := process_message_go_counts_lt loads env msg fuel (retry + 1)
                  (some msg2) retry (by omega)
                constructor
                · simp only [countInvokesAt, countTeardownsAt, List.countP_cons] at hz1 hz2 ⊢
                  simp [hz1, hz2]
                · simp only [countInvokesAt, List.countP_cons] at hz1 ⊢
                  simp [hz1]
              · have hne : (retry == n) = false := beq_eq_false_iff_ne.mpr hn
                constructor
                · simp only [countInvokesAt, countTeardownsAt, List.countP_cons] at ih1 ⊢
                  simp [hne, ih1]
                · simp only [countInvokesAt, List.countP_cons] at ih2 ⊢
                  simp [hne, ih2]

/-- Claim C8, confirmed: on every exit path of an attempt (success,
raise of the awaited orchestration, or failed classification of its
value) the teardown runs exactly once — each attempt index has exactly
one teardown event per invocation and is invoked at most once — and a
teardown exception is swallowed: the final result and the whole control
flow (the trace modulo the swallowed failure flag) are unchanged under
any other teardown behaviour `td2`. -/
theorem teardown_once_and_swallowed (loads : String → Option JVal)
    (g : Nat → GetOutcome) (td td2 : Nat → Bool) (max_retries : Nat) (msg : String)
    (n : Nat) :
    (process_message loads ⟨g, td⟩ max_retries msg).1 =
      (process_message loads ⟨g, td2⟩ max_retries msg).1 ∧
    (process_message loads ⟨g, td⟩ max_retries msg).2.map eraseTeardownFlag =
      (process_message loads ⟨g, td2⟩ max_retries msg).2.map eraseTeardownFlag ∧
    countTeardownsAt n (process_message loads ⟨g, td⟩ max_retries msg).2 =
      countInvokesAt n (process_message loads ⟨g, td⟩ max_retries msg).2 ∧
    countInvokesAt n (process_message loads ⟨g, td⟩ max_retries msg).2 ≤ 1 := by
  obtain ⟨h1, h2⟩ := process_message_go_td_independent loads g td td2 msg max_retries 0 none
  obtain ⟨h3, h4⟩ := process_message_go_counts loads ⟨g, td⟩ msg max_retries 0 none n
  exact ⟨h1, h2, h3, h4⟩

/-- Claim C8, witness: concrete instance with a teardown that raises on
every attempt versus one that never raises. -/
theorem teardown_once_and_swallowed_witness :
    (process_message loadsNone ⟨fun _ => .raise "Timeout", fun _ => true⟩ 2 "hi").1 =
      (process_message loadsNone ⟨fun _ => .raise "Timeout", fun _ => false⟩ 2 "hi").1 ∧
    countTeardownsAt 0
        (process_message loadsNone ⟨fun _ => .raise "Timeout", fun _ => true⟩ 2 "hi").2 =
      countInvokesAt 0
        (process_message loadsNone ⟨fun _ => .raise "Timeout", fun _ => true⟩ 2 "hi").2 := by
  have h := teardown_once_and_swallowed loadsNone (fun _ => .raise "Timeout")
    (fun _ => true) (fun _ => false) 2 "hi" 0
  exact ⟨h.1, h.2.2.1⟩

/-!  Claim C9 — per-attempt isolation. -/

/-- Every invocation in the loop's trace carries the original task
string and the runtime created on its own iteration. -/
theorem process_message_go_invoke_shape (loads : String → Option JVal)
    (env : OrchestrationEnv) (msg : String) :
    ∀ fuel retry last n rid t,
      Event.invokeEv n rid t ∈ (process_message_go loads env msg fuel retry last).2 →
      t = msg ∧ rid = n := by
  intro fuel
  induction fuel with
  | zero =>
      intro retry last n rid t hmem
      cases last <;> simp [process_message_go] at hmem
  | succ fuel ih =>
      intro retry last n rid t hmem
      cases hg : env.get_outcome retry with
      | raise msg2 =>
          rw [process_message_go_step_raise loads env msg fuel retry last msg2 hg] at hmem
          simp only [List.mem_cons] at hmem
          rcases hmem with h | h | h
          · obtain ⟨hn, hr, ht⟩ := Event.invokeEv.inj h
            exact ⟨ht, hr.trans hn.symm⟩
          · exact Event.noConfusion h
          · exact ih (retry + 1) (some msg2) n rid t h
      | value content =>
          cases hc : classify_final loads content with
          | ok v =>
              rw [process_message_go_step_ok loads env msg fuel retry last content v hg hc] at hmem
              simp only [List.mem_cons, List.not_mem_nil, or_false] at hmem
              rcases hmem with h | h
              · obtain ⟨hn, hr, ht⟩ := Event.invokeEv.inj h
                exact ⟨ht, hr.trans hn.symm⟩
              · exact Event.noConfusion h
          | error msg2 =>
              rw [process_message_go_step_error loads env msg fuel retry last content msg2 hg hc]
                at hmem
              simp only [List.mem_cons] at hmem
              rcases hmem with h | h | h
              · obtain ⟨hn, hr, ht⟩ := Event.invokeEv.inj h
                exact ⟨ht, hr.trans hn.symm⟩
              · exact Event.noConfusion h
              · exact ih (retry + 1) (some msg2) n rid t h

/-- Claim C9, confirmed: every orchestration invocation recorded by
`process_message` carries exactly the original user message as its task
— no history or partial progress from an earlier attempt — and the
runtime created on that very iteration (`runtimeId = attempt index`);
moreover each attempt index is invoked at most once, so no
runtime/session is ever reused by a later attempt. -/
theorem fresh_attempt_isolation (loads : String → Option JVal)
    (env : OrchestrationEnv) (max_retries : Nat) (msg : String) (n rid : Nat)
    (t : String)
    (hmem : Event.invokeEv n rid t ∈ (process_message loads env max_retries msg).2) :
    t = msg ∧ rid = n ∧
    countInvokesAt n (process_message loads env max_retries msg).2 ≤ 1 := by
  obtain ⟨ht, hr⟩ := process_message_go_invoke_shape loads env msg max_retries 0 none n rid t hmem
  exact ⟨ht, hr, (process_message_go_counts loads env msg max_retries 0 none n).2⟩

/-- Claim C9, witness: the single invocation of a one-retry run carries
the original message and the fresh runtime of attempt 0. -/
theorem fresh_attempt_isolation_witness :
    "hi" = "hi" ∧ (0 : Nat) = 0 ∧
    countInvokesAt 0 (process_message loadsNone envAllFail 1 "hi").2 ≤ 1 := by
  exact fresh_attempt_isolation loadsNone envAllFail 1 "hi" 0 0 "hi" (by decide)
